import Mathlib

/-!
Shallow embedding of the simulation core of the `tunnelvision` endless
tunnel-runner: the `Spawner` chain manager (`src/systems/Spawner.js`) and the
`CollisionSystem` (player vs. rotating perforated barrier discs, coin pickup).
JavaScript `number`s are embedded as real numbers; the geometric comparisons of
the source (`Math.hypot`, `Math.cos`, `Math.sin`) become propositions over `ℝ`,
so collision queries are `Prop`-valued and stateful code is explicit state
passing.  `Math.random()` draws become explicit parameters in `[0,1)`.
-/

namespace Tunnelvision

open Classical

/-- A circular hole `{x, y, r}` of a barrier disc, in the disc's own
(unrotated) local frame. -/
structure Hole where
  x : ℝ
  y : ℝ
  r : ℝ

/-- A barrier disc as produced by `BarrierDisc` in `Spawner.js`: `type` is
modelled by the flag `isDisc` (the spawner only ever creates `'disc'`
obstacles), `R` is the disc radius, `depth` the thickness along the scroll
axis, `z` the scroll position, `angle`/`spin` the rotation state and
`passedSound` the one-shot "barrier passed" flag. -/
structure Obstacle where
  isDisc : Bool
  R : ℝ
  depth : ℝ
  holes : List Hole
  z : ℝ
  angle : ℝ
  spin : ℝ
  passedSound : Bool

/-- Player state as consumed by the collision system: planar position and
collision radius. -/
structure Player where
  x : ℝ
  y : ℝ
  radius : ℝ

/-- The tunable forgiveness parameters held by `CollisionSystem`. -/
structure CollisionConfig where
  zOffset : ℝ
  zPadding : ℝ
  playerRadiusFactor : ℝ
  coinZPadding : ℝ

/-- The constructor defaults of `CollisionSystem`. -/
def defaultCollisionConfig : CollisionConfig :=
  { zOffset := -0.6, zPadding := 0.18, playerRadiusFactor := 0.9,
    coinZPadding := 1.2 }

/-- Effective (shrunk) player radius:
`(player.radius || 0.35) * this.playerRadiusFactor`.  For a numeric radius, the
JavaScript `||` default fires exactly when the radius is `0` (falsy). -/
noncomputable def effPlayerRadius (cfg : CollisionConfig) (p : Player) : ℝ :=
  (if p.radius = 0 then 0.35 else p.radius) * cfg.playerRadiusFactor

/-- The player position rotated into the obstacle's local frame by the inverse
of the obstacle's angle (x component):
`px = player.position.x * cos(ang) + player.position.y * sin(ang)`. -/
noncomputable def localX (o : Obstacle) (p : Player) : ℝ :=
  p.x * Real.cos o.angle + p.y * Real.sin o.angle

/-- Rotated player position, y component:
`py = -player.position.x * sin(ang) + player.position.y * cos(ang)`. -/
noncomputable def localY (o : Obstacle) (p : Player) : ℝ :=
  -p.x * Real.sin o.angle + p.y * Real.cos o.angle

/-- `(o.depth || 1.8)`: the depth default fires exactly when `depth` is `0`. -/
noncomputable def obstacleDepth (o : Obstacle) : ℝ :=
  if o.depth = 0 then 1.8 else o.depth

/-- The z-window test of `checkObstacles`:
`Math.abs(o.z - this.zOffset) > halfWindow` skips, where
`halfWindow = (o.depth || 1.8) / 2 + this.zPadding`. -/
noncomputable def inZWindow (cfg : CollisionConfig) (o : Obstacle) : Prop :=
  |o.z - cfg.zOffset| ≤ obstacleDepth o / 2 + cfg.zPadding

/-- Hole containment test of `checkObstacles`: some hole satisfies
`Math.hypot(px - h.x, py - h.y) <= Math.max(0, (h.r || 0) - rp)`
(`h.r || 0` is the identity on numbers). -/
noncomputable def insideHoleOf (cfg : CollisionConfig) (o : Obstacle)
    (p : Player) : Prop :=
  ∃ h ∈ o.holes,
    Real.sqrt ((localX o p - h.x) ^ 2 + (localY o p - h.y) ^ 2) ≤
      max 0 (h.r - effPlayerRadius cfg p)

/-- One iteration of the `checkObstacles` loop reports a collision at obstacle
`o` exactly when: `o` is a disc, its z-window contains the collision plane, the
player's shrunk circle is not inside any hole, and
`Math.hypot(px, py) <= (o.R || 0) - rp`. -/
noncomputable def barrierCollides (cfg : CollisionConfig) (o : Obstacle)
    (p : Player) : Prop :=
  o.isDisc = true ∧ inZWindow cfg o ∧ ¬ insideHoleOf cfg o p ∧
    Real.sqrt (localX o p ^ 2 + localY o p ^ 2) ≤ o.R - effPlayerRadius cfg p

/-- `CollisionSystem.checkObstacles(obstacles, player)`: the loop returns
`true` as soon as one obstacle collides (the disjunction short-circuits at the
first colliding barrier), `false` after exhausting the list. -/
noncomputable def checkObstacles (cfg : CollisionConfig) :
    List Obstacle → Player → Prop
  | [], _ => False
  | o :: os, p => barrierCollides cfg o p ∨ checkObstacles cfg os p

/-- A coin as seen by `CollisionSystem.collectCoins`: tracked world z, resolved
mesh world position `(wx, wy)` (via `c.mesh.getWorldPosition`), the `Coin`
class's `pickupRadius` field, and the `collected` flag. -/
structure Coin where
  z : ℝ
  wx : ℝ
  wy : ℝ
  pickupRadius : ℝ
  collected : Bool

/-- The body of the `collectCoins` loop for a single coin: skip if already
collected, skip if `Math.abs(c.z) > this.coinZPadding`, otherwise mark
collected and count 1 when
`Math.hypot(_tmp.x - player.position.x, _tmp.y - player.position.y)
 <= 0.45 + player.radius`. -/
noncomputable def collectStep (cfg : CollisionConfig) (p : Player) (c : Coin) :
    Coin × ℕ :=
  if c.collected then (c, 0)
  else if cfg.coinZPadding < |c.z| then (c, 0)
  else if Real.sqrt ((c.wx - p.x) ^ 2 + (c.wy - p.y) ^ 2) ≤ 0.45 + p.radius
    then ({ c with collected := true }, 1)
  else (c, 0)

/-- `CollisionSystem.collectCoins(coins, player)`: returns the updated coin
list (the `collected` flags are the only mutation) together with the number of
newly collected coins. -/
noncomputable def collectCoins (cfg : CollisionConfig) (p : Player) :
    List Coin → List Coin × ℕ
  | [] => ([], 0)
  | c :: cs =>
      ((collectStep cfg p c).1 :: (collectCoins cfg p cs).1,
        (collectStep cfg p c).2 + (collectCoins cfg p cs).2)

/-- Hole tuning record `this.holeCfg` of the spawner. -/
structure HoleCfg where
  edgeMarginAbs : ℝ
  ringWidthFracMin : ℝ
  ringWidthFracMax : ℝ
  twinRadiusFracMin : ℝ
  twinRadiusFracMax : ℝ
  twinMinGapFrac : ℝ
  offRadiusFracMin : ℝ
  offRadiusFracMax : ℝ

/-- The spawner constructor's default hole tuning. -/
def defaultHoleCfg : HoleCfg :=
  { edgeMarginAbs := 0.35, ringWidthFracMin := 0.52, ringWidthFracMax := 0.68,
    twinRadiusFracMin := 0.18, twinRadiusFracMax := 0.26,
    twinMinGapFrac := 0.12, offRadiusFracMin := 0.22,
    offRadiusFracMax := 0.32 }

/-- `rand(min, max) = min + Math.random() * (max - min)` with the draw `u`
made explicit. -/
def rand (a b u : ℝ) : ℝ := a + u * (b - a)

/-- The `Math.random()` draws consumed while spawning one barrier: the layout
selector `p`, up to three draws `u1 u2 u3` used by the hole layout (radius,
offset distance, offset direction), and the initial angle / spin draws. -/
structure Draws where
  p : ℝ
  u1 : ℝ
  u2 : ℝ
  u3 : ℝ
  uAngle : ℝ
  uSpin : ℝ

/-- Twin layout, drawn hole radius before the overlap clamp:
`rHole = R * rand(twinRadiusFracMin, twinRadiusFracMax)`. -/
noncomputable def twinRHole0 (R : ℝ) (cfg : HoleCfg) (d : Draws) : ℝ :=
  R * rand cfg.twinRadiusFracMin cfg.twinRadiusFracMax d.u1

/-- Twin layout, `roMax = Math.max(0, R - rHole - edge)` (computed from the
pre-clamp radius, as in the source). -/
noncomputable def twinRoMax (R : ℝ) (cfg : HoleCfg) (d : Draws) : ℝ :=
  max 0 (R - twinRHole0 R cfg d - cfg.edgeMarginAbs)

/-- Twin layout, clamped hole radius:
`rHole = Math.min(rHole, Math.max(0.1 * R, roMax - minGap))`. -/
noncomputable def twinRHole (R : ℝ) (cfg : HoleCfg) (d : Draws) : ℝ :=
  min (twinRHole0 R cfg d)
    (max (0.1 * R) (twinRoMax R cfg d - cfg.twinMinGapFrac * R))

/-- Twin layout, `roMin = Math.max(rHole + minGap, 0.22 * R)` (from the
clamped radius). -/
noncomputable def twinRoMin (R : ℝ) (cfg : HoleCfg) (d : Draws) : ℝ :=
  max (twinRHole R cfg d + cfg.twinMinGapFrac * R) (0.22 * R)

/-- Twin layout, offset distance:
`ro = roMin <= roMax ? rand(roMin, roMax) : roMax`. -/
noncomputable def twinRo (R : ℝ) (cfg : HoleCfg) (d : Draws) : ℝ :=
  if twinRoMin R cfg d ≤ twinRoMax R cfg d then
    rand (twinRoMin R cfg d) (twinRoMax R cfg d) d.u2
  else twinRoMax R cfg d

/-- Twin-hole layout of `_spawnBarrierAt` (`p < 0.45` branch): two opposite
holes of equal radius at `±(cos a, sin a) * ro`, `a = Math.random() * 2π`. -/
noncomputable def twinHoles (R : ℝ) (cfg : HoleCfg) (d : Draws) : List Hole :=
  [⟨Real.cos (d.u3 * (2 * Real.pi)) * twinRo R cfg d,
      Real.sin (d.u3 * (2 * Real.pi)) * twinRo R cfg d, twinRHole R cfg d⟩,
    ⟨-(Real.cos (d.u3 * (2 * Real.pi)) * twinRo R cfg d),
      -(Real.sin (d.u3 * (2 * Real.pi)) * twinRo R cfg d), twinRHole R cfg d⟩]

/-- Centered-ring layout of `_spawnBarrierAt` (`0.45 ≤ p < 0.8` branch): a
single hole at the origin of radius `Math.max(edge, R - ringWidth)` with
`ringWidth = R * rand(ringWidthFracMin, ringWidthFracMax)`. -/
noncomputable def ringHole (R : ℝ) (cfg : HoleCfg) (d : Draws) : List Hole :=
  [⟨0, 0, max cfg.edgeMarginAbs
      (R - R * rand cfg.ringWidthFracMin cfg.ringWidthFracMax d.u1)⟩]

/-- Off-center layout, hole radius:
`rHole = R * rand(offRadiusFracMin, offRadiusFracMax)`. -/
noncomputable def offRHole (R : ℝ) (cfg : HoleCfg) (d : Draws) : ℝ :=
  R * rand cfg.offRadiusFracMin cfg.offRadiusFracMax d.u1

/-- Off-center layout, `roMax = Math.max(0, R - rHole - edge)`. -/
noncomputable def offRoMax (R : ℝ) (cfg : HoleCfg) (d : Draws) : ℝ :=
  max 0 (R - offRHole R cfg d - cfg.edgeMarginAbs)

/-- Off-center layout, `roMin = Math.min(roMax, R * 0.28)`. -/
noncomputable def offRoMin (R : ℝ) (cfg : HoleCfg) (d : Draws) : ℝ :=
  min (offRoMax R cfg d) (R * 0.28)

/-- Off-center layout, offset distance:
`ro = roMin + Math.random() * Math.max(0.001, roMax - roMin)`. -/
noncomputable def offRo (R : ℝ) (cfg : HoleCfg) (d : Draws) : ℝ :=
  offRoMin R cfg d + d.u2 * max 0.001 (offRoMax R cfg d - offRoMin R cfg d)

/-- Off-center single-hole layout of `_spawnBarrierAt` (`p ≥ 0.8` branch). -/
noncomputable def offsetHole (R : ℝ) (cfg : HoleCfg) (d : Draws) : List Hole :=
  [⟨Real.cos (d.u3 * (2 * Real.pi)) * offRo R cfg d,
      Real.sin (d.u3 * (2 * Real.pi)) * offRo R cfg d, offRHole R cfg d⟩]

/-- The hole generation of `Spawner._spawnBarrierAt`: one of three layouts
selected by the uniform draw `p`. -/
noncomputable def genHoles (R : ℝ) (cfg : HoleCfg) (d : Draws) : List Hole :=
  if d.p < 0.45 then twinHoles R cfg d
  else if d.p < 0.8 then ringHole R cfg d
  else offsetHole R cfg d

/-- The `BarrierDisc` built by `_spawnBarrierAt` at position `z`:
`initialAngle = Math.random() * 2π`, `spin = (Math.random() * 2 - 1) * 0.6`,
`passedSound = false`, and `o.setZ(z)`.  The mesh/color data is visual only
and outside the core. -/
noncomputable def mkBarrier (R depth : ℝ) (cfg : HoleCfg) (d : Draws) (z : ℝ) :
    Obstacle :=
  { isDisc := true, R := R, depth := depth, holes := genHoles R cfg d,
    z := z, angle := d.uAngle * (2 * Real.pi), spin := (d.uSpin * 2 - 1) * 0.6,
    passedSound := false }

/-- Spawner-side view of a `Coin`: the tracked `z`, the owning barrier's z
(`parentZ`, mirroring `c.parentBarrier.z` — the coin advances with its parent,
`none` for an unowned coin), `localZ`, and the `collected` flag. -/
structure SpawnCoin where
  z : ℝ
  parentZ : Option ℝ
  localZ : ℝ
  collected : Bool

/-- The state of the `Spawner`: configuration fields and the live
obstacle/coin lists. -/
structure SpawnState where
  tunnelRadius : ℝ
  barrierDepth : ℝ
  holeCfg : HoleCfg
  barrierZStart : ℝ
  barrierSpacingZ : ℝ
  prefillCount : ℕ
  despawnZ : ℝ
  obstacles : List Obstacle
  coins : List SpawnCoin

/-- `Spawner._spawnBarrierAt(z, colorHex)`: push one new barrier built from
the draw record `d`, and one coin per generated hole (parented to the barrier,
`localZ = 0`, `coin.z = z`). -/
noncomputable def spawnBarrierAt (s : SpawnState) (d : Draws) (z : ℝ) :
    SpawnState :=
  { s with
    obstacles :=
      s.obstacles ++ [mkBarrier s.tunnelRadius s.barrierDepth s.holeCfg d z],
    coins :=
      s.coins ++ (genHoles s.tunnelRadius s.holeCfg d).map
        (fun _ => ⟨z, some z, 0, false⟩) }

/-- The prefill loop of `_rebuildChain`: spawn at
`z = barrierZStart - i * barrierSpacingZ` for `i = 0 .. prefillCount - 1`,
taking the i-th spawn's draws from the stream `ω`. -/
noncomputable def prefillLoop (ω : ℕ → Draws) :
    SpawnState → ℕ → ℕ → SpawnState
  | s, _, 0 => s
  | s, i, n + 1 =>
      prefillLoop ω
        (spawnBarrierAt s (ω i) (s.barrierZStart - i * s.barrierSpacingZ))
        (i + 1) n

/-- `Spawner._rebuildChain()`: clear the live lists, then prefill
`prefillCount` barriers. -/
noncomputable def rebuildChain (s : SpawnState) (ω : ℕ → Draws) : SpawnState :=
  prefillLoop ω { s with obstacles := [], coins := [] } 0 s.prefillCount

/-- The per-obstacle body of the advance loop in `Spawner.update`:
`o.setZ(o.z + speed * dt)`, `if (o.spin !== 0) o.setAngle(...)`, and the
one-shot passed check `!o.passedSound && prevZ < 0 && o.z >= 0` which sets the
flag and fires the notification (the returned `Bool`). -/
noncomputable def advanceObstacle (v dt : ℝ) (o : Obstacle) :
    Obstacle × Bool :=
  if o.passedSound = false ∧ o.z < 0 ∧ 0 ≤ o.z + v * dt then
    ({ o with z := o.z + v * dt,
              angle := if o.spin = 0 then o.angle else o.angle + o.spin * dt,
              passedSound := true }, true)
  else
    ({ o with z := o.z + v * dt,
              angle := if o.spin = 0 then o.angle else o.angle + o.spin * dt },
      false)

/-- The per-coin body of the advance loop:
`if (c.parentBarrier) c.z = c.parentBarrier.z + (c.localZ || 0)`, with the
parent's z freshly advanced by `speed * dt` (the cosmetic mesh rotation is
irrelevant to the core state). -/
def advanceCoin (v dt : ℝ) (c : SpawnCoin) : SpawnCoin :=
  match c.parentZ with
  | some pz => { c with parentZ := some (pz + v * dt), z := pz + v * dt + c.localZ }
  | none => c

/-- `Spawner.update` before the refill loop: self-healing rebuild when the
live list is empty, advance of obstacles (collecting the fired "barrier
passed" events) and coins, then the two despawn filters
(`o.z > despawnZ` removes a barrier; `zw > despawnZ || c.collected` removes a
coin, where `zw` resolves through the parent). -/
noncomputable def preRefill (s : SpawnState) (ω : ℕ → Draws) (v dt : ℝ) :
    SpawnState × List Obstacle :=
  let s0 := if s.obstacles.length = 0 then rebuildChain s ω else s
  let advanced := s0.obstacles.map (advanceObstacle v dt)
  ({ s0 with
      obstacles :=
        (advanced.map (fun x => x.1)).filter
          (fun o => decide (o.z ≤ s0.despawnZ)),
      coins :=
        (s0.coins.map (advanceCoin v dt)).filter
          (fun c => !(decide (s0.despawnZ < c.parentZ.getD c.z) || c.collected)) },
    (advanced.filter (fun x => x.2)).map (fun x => x.1))

/-- The z at which the refill loop places the next barrier:
`last ? last.z - this.barrierSpacingZ : this.barrierZStart`, where `last` is
the barrier at the end of the live list (the furthest-back barrier of the
maintained decreasing-z chain). -/
noncomputable def nextSpawnZ (s : SpawnState) : ℝ :=
  match s.obstacles.getLast? with
  | some last => last.z - s.barrierSpacingZ
  | none => s.barrierZStart

/-- The `while (this.obstacles.length < this.prefillCount)` refill loop of
`Spawner.update`, with explicit fuel: each iteration appends exactly one
barrier, so any fuel of at least `prefillCount` reproduces the loop exactly. -/
noncomputable def refillLoop (ω : ℕ → Draws) :
    SpawnState → ℕ → ℕ → SpawnState
  | s, _, 0 => s
  | s, k, fuel + 1 =>
      if s.obstacles.length < s.prefillCount then
        refillLoop ω (spawnBarrierAt s (ω k) (nextSpawnZ s)) (k + 1) fuel
      else s

/-- `Spawner.update(speed, dt)`: the pre-refill phase followed by the refill
loop.  Returns the new state together with the list of barriers whose
"barrier passed" notification fired this tick.  `ωR` supplies the draws of a
self-healing rebuild, `ωS` those of the refill spawns. -/
noncomputable def update (s : SpawnState) (ωR ωS : ℕ → Draws) (v dt : ℝ) :
    SpawnState × List Obstacle :=
  (refillLoop ωS (preRefill s ωR v dt).1 0 (preRefill s ωR v dt).1.prefillCount,
    (preRefill s ωR v dt).2)

/-- The trajectory of one barrier under successive update ticks with
per-tick speed `sp t` and time step `dtf t`. -/
noncomputable def obsTrace (sp dtf : ℕ → ℝ) (o : Obstacle) : ℕ → Obstacle
  | 0 => o
  | t + 1 => (advanceObstacle (sp t) (dtf t) (obsTrace sp dtf o t)).1

/-- Whether the "barrier passed" notification fires for the barrier on tick
`t` of its trajectory. -/
noncomputable def fireAt (sp dtf : ℕ → ℝ) (o : Obstacle) (t : ℕ) : Bool :=
  (advanceObstacle (sp t) (dtf t) (obsTrace sp dtf o t)).2

/-- Modelled from the spec: the placement rule "compute the new barrier's z as
(z of the current furthest-back barrier) - spacing_z, or start_z if none
exist", iterated for `n` consecutive spawns starting from furthest-back z
`base` (`none` when no barrier is live). -/
def specSpawnZs (base : Option ℝ) (startZ spacing : ℝ) : ℕ → List ℝ
  | 0 => []
  | n + 1 =>
      match base with
      | some b => (b - spacing) :: specSpawnZs (some (b - spacing)) startZ spacing n
      | none => startZ :: specSpawnZs (some startZ) startZ spacing n

/-- A JavaScript number for the configuration setters: either NaN or a real
number.  `Number(v)` of a number is the identity and maps non-numeric input to
NaN. -/
inductive JsNum where
  | nan : JsNum
  | num : ℝ → JsNum

/-- `Math.max` on JavaScript numbers: NaN if either argument is NaN. -/
noncomputable def jsMax : JsNum → JsNum → JsNum
  | JsNum.nan, _ => JsNum.nan
  | JsNum.num _, JsNum.nan => JsNum.nan
  | JsNum.num a, JsNum.num b => JsNum.num (max a b)

/-- The barrier spacing stored by `Spawner.setBarrierSpacing(v)`:
`Math.max(this.barrierDepth + this.surfaceGapZ + 0.01, Number(v))`. -/
noncomputable def setBarrierSpacingStored (depth gap : ℝ) (v : JsNum) :
    JsNum :=
  jsMax (JsNum.num (depth + gap + 0.01)) v

/-! ### Helper lemmas -/

/-- Evaluate a square root at a perfect square. -/
lemma sqrt_num (x y : ℝ) (hy : 0 ≤ y) (hxy : x = y ^ 2) : Real.sqrt x = y := by
  rw [hxy, Real.sqrt_sq hy]

/-- A barrier whose hole containment test succeeds for some hole never
collides. -/
lemma mem_hole_safe (cfg : CollisionConfig) (o : Obstacle) (p : Player)
    (h : Hole) (hmem : h ∈ o.holes)
    (hd : Real.sqrt ((localX o p - h.x) ^ 2 + (localY o p - h.y) ^ 2) ≤
      max 0 (h.r - effPlayerRadius cfg p)) :
    ¬ barrierCollides cfg o p :=
  fun hc => hc.2.2.1 ⟨h, hmem, hd⟩

/-- The collision verdict only depends on the player through its position and
effective radius. -/
lemma checkObstacles_congr (cfg : CollisionConfig) (os : List Obstacle)
    (p q : Player) (hx : p.x = q.x) (hy : p.y = q.y)
    (he : effPlayerRadius cfg p = effPlayerRadius cfg q) :
    checkObstacles cfg os p ↔ checkObstacles cfg os q := by
  induction os with
  | nil => simp [checkObstacles]
  | cons o os ih =>
      have hlx : localX o p = localX o q := by simp [localX, hx, hy]
      have hly : localY o p = localY o q := by simp [localY, hx, hy]
      have hb : barrierCollides cfg o p ↔ barrierCollides cfg o q := by
        unfold barrierCollides insideHoleOf
        rw [hlx, hly, he]
      simp only [checkObstacles]
      rw [hb, ih]

/-! ### Claim theorems: collision engine -/

/-- C1: for every barrier whose z lies inside the collision z-window, if the
player's shrunk circle is fully contained in some hole of that barrier — the
distance from the player's position rotated into the barrier's local frame by
`-angle` to the hole center is at most the hole radius minus the player's
effective (shrunk) radius — then `checkObstacles` does not flag a collision at
that barrier, for every value of the barrier's rotation angle (the angle is
universally quantified as part of `o`). -/
theorem hole_containment_never_collides (cfg : CollisionConfig) (o : Obstacle)
    (p : Player) (h : Hole) (hmem : h ∈ o.holes) (hw : inZWindow cfg o)
    (hd : Real.sqrt ((localX o p - h.x) ^ 2 + (localY o p - h.y) ^ 2) ≤
      h.r - effPlayerRadius cfg p) :
    ¬ barrierCollides cfg o p :=
  mem_hole_safe cfg o p h hmem (hd.trans (le_max_right 0 _))

/-- Witness for C1: a centered hole of radius 3 on an in-window disc of radius
8 rotated by 1 radian, player at the origin with radius 0.35. -/
theorem hole_containment_never_collides_witness :
    ((⟨0, 0, 3⟩ : Hole) ∈
        (⟨true, 8, 1.8, [⟨0, 0, 3⟩], -0.6, 1, 0, false⟩ : Obstacle).holes ∧
      inZWindow defaultCollisionConfig
        ⟨true, 8, 1.8, [⟨0, 0, 3⟩], -0.6, 1, 0, false⟩ ∧
      Real.sqrt
          ((localX ⟨true, 8, 1.8, [⟨0, 0, 3⟩], -0.6, 1, 0, false⟩
              ⟨0, 0, 0.35⟩ - 0) ^ 2 +
            (localY ⟨true, 8, 1.8, [⟨0, 0, 3⟩], -0.6, 1, 0, false⟩
              ⟨0, 0, 0.35⟩ - 0) ^ 2) ≤
        3 - effPlayerRadius defaultCollisionConfig ⟨0, 0, 0.35⟩) ∧
    ¬ barrierCollides defaultCollisionConfig
        ⟨true, 8, 1.8, [⟨0, 0, 3⟩], -0.6, 1, 0, false⟩ ⟨0, 0, 0.35⟩ := by
  have hmem : (⟨0, 0, 3⟩ : Hole) ∈
      (⟨true, 8, 1.8, [⟨0, 0, 3⟩], -0.6, 1, 0, false⟩ : Obstacle).holes := by
    simp
  have hw : inZWindow defaultCollisionConfig
      ⟨true, 8, 1.8, [⟨0, 0, 3⟩], -0.6, 1, 0, false⟩ := by
    norm_num [inZWindow, obstacleDepth, defaultCollisionConfig]
  have hd : Real.sqrt
      ((localX ⟨true, 8, 1.8, [⟨0, 0, 3⟩], -0.6, 1, 0, false⟩
          ⟨0, 0, 0.35⟩ - 0) ^ 2 +
        (localY ⟨true, 8, 1.8, [⟨0, 0, 3⟩], -0.6, 1, 0, false⟩
          ⟨0, 0, 0.35⟩ - 0) ^ 2) ≤
      3 - effPlayerRadius defaultCollisionConfig ⟨0, 0, 0.35⟩ := by
    have hx : localX ⟨true, 8, 1.8, [⟨0, 0, 3⟩], -0.6, 1, 0, false⟩
        ⟨0, 0, 0.35⟩ = 0 := by simp [localX]
    have hy : localY ⟨true, 8, 1.8, [⟨0, 0, 3⟩], -0.6, 1, 0, false⟩
        ⟨0, 0, 0.35⟩ = 0 := by simp [localY]
    rw [hx, hy]
    have : Real.sqrt (((0 : ℝ) - 0) ^ 2 + ((0 : ℝ) - 0) ^ 2) = 0 :=
      sqrt_num _ _ le_rfl (by norm_num)
    rw [this]
    norm_num [effPlayerRadius, defaultCollisionConfig]
  exact ⟨⟨hmem, hw, hd⟩,
    hole_containment_never_collides defaultCollisionConfig _ _ _ hmem hw hd⟩

/-- C2: on a single in-window barrier of outer radius 8 with one centered hole
of radius 3 and angle 0, `checkObstacles` returns false for a player at
`(0, 0)` of radius 0.35 (effective radius 0.315, inside the hole) and returns
true for a player at `(5, 0)` of the same radius (outside the hole but within
the solid disc); the loop returns on the first colliding barrier, here the
only one. -/
theorem checkObstacles_scenario (z : ℝ)
    (hw : inZWindow defaultCollisionConfig
      ⟨true, 8, 1.8, [⟨0, 0, 3⟩], z, 0, 0, false⟩) :
    ¬ checkObstacles defaultCollisionConfig
        [⟨true, 8, 1.8, [⟨0, 0, 3⟩], z, 0, 0, false⟩] ⟨0, 0, 0.35⟩ ∧
    checkObstacles defaultCollisionConfig
      [⟨true, 8, 1.8, [⟨0, 0, 3⟩], z, 0, 0, false⟩] ⟨5, 0, 0.35⟩ := by
  have heff0 : effPlayerRadius defaultCollisionConfig ⟨0, 0, 0.35⟩ = 0.315 := by
    norm_num [effPlayerRadius, defaultCollisionConfig]
  have heff5 : effPlayerRadius defaultCollisionConfig ⟨5, 0, 0.35⟩ = 0.315 := by
    norm_num [effPlayerRadius, defaultCollisionConfig]
  constructor
  · have hsafe : ¬ barrierCollides defaultCollisionConfig
        ⟨true, 8, 1.8, [⟨0, 0, 3⟩], z, 0, 0, false⟩ ⟨0, 0, 0.35⟩ := by
      apply mem_hole_safe _ _ _ ⟨0, 0, 3⟩ (by simp)
      have hx : localX ⟨true, 8, 1.8, [⟨0, 0, 3⟩], z, 0, 0, false⟩
          ⟨0, 0, 0.35⟩ = 0 := by simp [localX]
      have hy : localY ⟨true, 8, 1.8, [⟨0, 0, 3⟩], z, 0, 0, false⟩
          ⟨0, 0, 0.35⟩ = 0 := by simp [localY]
      rw [hx, hy, heff0]
      have : Real.sqrt (((0 : ℝ) - 0) ^ 2 + ((0 : ℝ) - 0) ^ 2) = 0 :=
        sqrt_num _ _ le_rfl (by norm_num)
      rw [this]
      norm_num [le_max_iff]
    simp [checkObstacles, hsafe]
  · have hx : localX ⟨true, 8, 1.8, [⟨0, 0, 3⟩], z, 0, 0, false⟩
        ⟨5, 0, 0.35⟩ = 5 := by simp [localX]
    have hy : localY ⟨true, 8, 1.8, [⟨0, 0, 3⟩], z, 0, 0, false⟩
        ⟨5, 0, 0.35⟩ = 0 := by simp [localY]
    have hcol : barrierCollides defaultCollisionConfig
        ⟨true, 8, 1.8, [⟨0, 0, 3⟩], z, 0, 0, false⟩ ⟨5, 0, 0.35⟩ := by
      refine ⟨rfl, hw, ?_, ?_⟩
      · rintro ⟨h, hm, hle⟩
        simp only [List.mem_singleton] at hm
        subst hm
        rw [hx, hy, heff5] at hle
        have h5 : Real.sqrt (((5 : ℝ) - 0) ^ 2 + ((0 : ℝ) - 0) ^ 2) = 5 :=
          sqrt_num _ _ (by norm_num) (by norm_num)
        rw [h5] at hle
        have : ¬ ((5 : ℝ) ≤ max 0 (3 - 0.315)) := by norm_num [le_max_iff]
        exact this hle
      · rw [hx, hy, heff5]
        have h5 : Real.sqrt ((5 : ℝ) ^ 2 + (0 : ℝ) ^ 2) = 5 :=
          sqrt_num _ _ (by norm_num) (by norm_num)
        rw [h5]
        norm_num
    simp [checkObstacles, hcol]

/-- Witness for C2: the in-window hypothesis holds at z = -0.6 (the collision
plane) and the theorem's two verdicts follow there. -/
theorem checkObstacles_scenario_witness :
    inZWindow defaultCollisionConfig
      ⟨true, 8, 1.8, [⟨0, 0, 3⟩], -0.6, 0, 0, false⟩ ∧
    (¬ checkObstacles defaultCollisionConfig
        [⟨true, 8, 1.8, [⟨0, 0, 3⟩], -0.6, 0, 0, false⟩] ⟨0, 0, 0.35⟩ ∧
      checkObstacles defaultCollisionConfig
        [⟨true, 8, 1.8, [⟨0, 0, 3⟩], -0.6, 0, 0, false⟩] ⟨5, 0, 0.35⟩) := by
  have hw : inZWindow defaultCollisionConfig
      ⟨true, 8, 1.8, [⟨0, 0, 3⟩], -0.6, 0, 0, false⟩ := by
    norm_num [inZWindow, obstacleDepth, defaultCollisionConfig]
  exact ⟨hw, checkObstacles_scenario (-0.6) hw⟩

/-- C8: for an in-window disc barrier, if the player's shrunk circle is
neither fully contained in any hole nor within the solid disc (its distance
from the barrier center exceeds `outer_radius` minus the effective radius),
no collision is reported for that barrier, and `checkObstacles` on that single
barrier returns false. -/
theorem straddling_edge_safe (cfg : CollisionConfig) (o : Obstacle)
    (p : Player) (hdisc : o.isDisc = true) (hw : inZWindow cfg o)
    (hh : ∀ h ∈ o.holes, h.r - effPlayerRadius cfg p <
      Real.sqrt ((localX o p - h.x) ^ 2 + (localY o p - h.y) ^ 2))
    (hs : o.R - effPlayerRadius cfg p <
      Real.sqrt (localX o p ^ 2 + localY o p ^ 2)) :
    ¬ barrierCollides cfg o p ∧ ¬ checkObstacles cfg [o] p := by
  have hnc : ¬ barrierCollides cfg o p := fun hc =>
    absurd hc.2.2.2 (not_le.mpr hs)
  exact ⟨hnc, by simp [checkObstacles, hnc]⟩

/-- Witness for C8: disc of radius 8 with a centered hole of radius 3 at the
collision plane, player at `(7.8, 0)` with radius 0.35 — outside the hole and
past the shrunk solid-disc boundary 7.685. -/
theorem straddling_edge_safe_witness :
    ((⟨true, 8, 1.8, [⟨0, 0, 3⟩], -0.6, 0, 0, false⟩ : Obstacle).isDisc = true ∧
      inZWindow defaultCollisionConfig
        ⟨true, 8, 1.8, [⟨0, 0, 3⟩], -0.6, 0, 0, false⟩) ∧
    (¬ barrierCollides defaultCollisionConfig
        ⟨true, 8, 1.8, [⟨0, 0, 3⟩], -0.6, 0, 0, false⟩ ⟨7.8, 0, 0.35⟩ ∧
      ¬ checkObstacles defaultCollisionConfig
        [⟨true, 8, 1.8, [⟨0, 0, 3⟩], -0.6, 0, 0, false⟩] ⟨7.8, 0, 0.35⟩) := by
  have hw : inZWindow defaultCollisionConfig
      ⟨true, 8, 1.8, [⟨0, 0, 3⟩], -0.6, 0, 0, false⟩ := by
    norm_num [inZWindow, obstacleDepth, defaultCollisionConfig]
  have heff : effPlayerRadius defaultCollisionConfig ⟨7.8, 0, 0.35⟩ = 0.315 := by
    norm_num [effPlayerRadius, defaultCollisionConfig]
  have hx : localX ⟨true, 8, 1.8, [⟨0, 0, 3⟩], -0.6, 0, 0, false⟩
      ⟨7.8, 0, 0.35⟩ = 7.8 := by simp [localX]
  have hy : localY ⟨true, 8, 1.8, [⟨0, 0, 3⟩], -0.6, 0, 0, false⟩
      ⟨7.8, 0, 0.35⟩ = 0 := by simp [localY]
  have hh : ∀ h ∈ (⟨true, 8, 1.8, [⟨0, 0, 3⟩], -0.6, 0, 0, false⟩ :
      Obstacle).holes,
      h.r - effPlayerRadius defaultCollisionConfig ⟨7.8, 0, 0.35⟩ <
        Real.sqrt ((localX ⟨true, 8, 1.8, [⟨0, 0, 3⟩], -0.6, 0, 0, false⟩
            ⟨7.8, 0, 0.35⟩ - h.x) ^ 2 +
          (localY ⟨true, 8, 1.8, [⟨0, 0, 3⟩], -0.6, 0, 0, false⟩
            ⟨7.8, 0, 0.35⟩ - h.y) ^ 2) := by
    intro h hm
    simp only [List.mem_singleton] at hm
    subst hm
    rw [hx, hy, heff]
    have : Real.sqrt (((7.8 : ℝ) - 0) ^ 2 + ((0 : ℝ) - 0) ^ 2) = 7.8 :=
      sqrt_num _ _ (by norm_num) (by norm_num)
    rw [this]
    norm_num
  have hs : (⟨true, 8, 1.8, [⟨0, 0, 3⟩], -0.6, 0, 0, false⟩ : Obstacle).R -
      effPlayerRadius defaultCollisionConfig ⟨7.8, 0, 0.35⟩ <
      Real.sqrt (localX ⟨true, 8, 1.8, [⟨0, 0, 3⟩], -0.6, 0, 0, false⟩
          ⟨7.8, 0, 0.35⟩ ^ 2 +
        localY ⟨true, 8, 1.8, [⟨0, 0, 3⟩], -0.6, 0, 0, false⟩
          ⟨7.8, 0, 0.35⟩ ^ 2) := by
    rw [hx, hy, heff]
    have : Real.sqrt ((7.8 : ℝ) ^ 2 + (0 : ℝ) ^ 2) = 7.8 :=
      sqrt_num _ _ (by norm_num) (by norm_num)
    rw [this]
    norm_num
  exact ⟨⟨rfl, hw⟩,
    straddling_edge_safe defaultCollisionConfig _ _ rfl hw hh hs⟩

/-- C10: a player of radius 0 is not treated as a point: the effective
collision radius degenerates to `0.35 * radius_shrink_factor` (the JavaScript
`player.radius || 0.35` default), so `checkObstacles` returns the same verdict
for radius 0 as for radius 0.35, for any obstacle list and position. -/
theorem zero_radius_same_verdict (cfg : CollisionConfig) (os : List Obstacle)
    (x y : ℝ) :
    effPlayerRadius cfg ⟨x, y, 0⟩ = 0.35 * cfg.playerRadiusFactor ∧
    (checkObstacles cfg os ⟨x, y, 0⟩ ↔ checkObstacles cfg os ⟨x, y, 0.35⟩) := by
  have h0 : effPlayerRadius cfg ⟨x, y, 0⟩ = 0.35 * cfg.playerRadiusFactor := by
    simp [effPlayerRadius]
  have h35 : effPlayerRadius cfg ⟨x, y, 0.35⟩ =
      0.35 * cfg.playerRadiusFactor := by
    norm_num [effPlayerRadius]
  exact ⟨h0, checkObstacles_congr cfg os _ _ rfl rfl (h0.trans h35.symm)⟩

/-! ### Claim theorems: coin collection -/

/-- Re-running the per-coin collection step on its own output never collects
again: a newly collected coin is skipped by the `collected` guard, and a
skipped coin fails the same guard or test once more. -/
lemma collectStep_idem (cfg : CollisionConfig) (p : Player) (c : Coin) :
    collectStep cfg p (collectStep cfg p c).1 = ((collectStep cfg p c).1, 0) := by
  cases hcol : c.collected
  · by_cases hz : cfg.coinZPadding < |c.z|
    · simp [collectStep, hcol, hz]
    · by_cases hd : Real.sqrt ((c.wx - p.x) ^ 2 + (c.wy - p.y) ^ 2) ≤
          0.45 + p.radius
      · simp [collectStep, hcol, hz, hd]
      · simp [collectStep, hcol, hz, hd]
  · simp [collectStep, hcol]

/-- C7: `collectCoins` never counts an already-collected pickup: for every
coin list and player, a second call on the output of the first (same player,
no intervening mutation) returns count 0. -/
theorem collectCoins_second_call_zero (cfg : CollisionConfig) (p : Player)
    (cs : List Coin) :
    (collectCoins cfg p (collectCoins cfg p cs).1).2 = 0 := by
  induction cs with
  | nil => simp [collectCoins]
  | cons c cs ih => simp [collectCoins, collectStep_idem cfg p c, ih]

/-- Counterexample to C5 as stated: a live coin at z = 0 and planar distance 1
from the player, with `pickupRadius = 0.82` (the `Coin` class value
`0.5 * 1.5 + 0.07`) and player radius 0.35.  The claim's trigger condition
`distance ≤ pickupRadius + player.radius` holds (`1 ≤ 1.17`), yet
`collectCoins` counts nothing, because the code compares against the constant
`0.45 + player.radius = 0.8`, not the coin's `pickupRadius` field. -/
theorem collectCoins_ignores_pickupRadius_cex :
    (collectCoins defaultCollisionConfig ⟨0, 0, 0.35⟩
        [⟨0, 1, 0, 0.82, false⟩]).2 = 0 ∧
    Real.sqrt (((⟨0, 1, 0, 0.82, false⟩ : Coin).wx - (0 : ℝ)) ^ 2 +
        ((⟨0, 1, 0, 0.82, false⟩ : Coin).wy - (0 : ℝ)) ^ 2) ≤
      (⟨0, 1, 0, 0.82, false⟩ : Coin).pickupRadius + 0.35 ∧
    (⟨0, 1, 0, 0.82, false⟩ : Coin).collected = false ∧
    |(⟨0, 1, 0, 0.82, false⟩ : Coin).z| ≤ defaultCollisionConfig.coinZPadding := by
  refine ⟨?_, ?_, rfl, ?_⟩
  · norm_num [collectCoins, collectStep, defaultCollisionConfig, Real.sqrt_one]
  · norm_num [Real.sqrt_one]
  · show |(0 : ℝ)| ≤ 1.2
    norm_num

/-- C5 (amended): `collectCoins` marks a live, not-yet-collected coin whose
tracked world z is within the coin z-window as collected, and counts it,
exactly when the planar distance between the coin's resolved world position
and the player is at most the constant `0.45` plus `player.radius` (the code
compares against the hardcoded `0.45`, not the coin's `pickupRadius`
field). -/
theorem collectCoins_marks_iff (cfg : CollisionConfig) (p : Player) (c : Coin)
    (hl : c.collected = false) (hw : |c.z| ≤ cfg.coinZPadding) :
    (collectCoins cfg p [c] = ([{ c with collected := true }], 1) ↔
      Real.sqrt ((c.wx - p.x) ^ 2 + (c.wy - p.y) ^ 2) ≤ 0.45 + p.radius) := by
  have hnz : ¬ (cfg.coinZPadding < |c.z|) := not_lt.mpr hw
  by_cases hd : Real.sqrt ((c.wx - p.x) ^ 2 + (c.wy - p.y) ^ 2) ≤
      0.45 + p.radius
  · have hres : collectCoins cfg p [c] = ([{ c with collected := true }], 1) := by
      simp [collectCoins, collectStep, hl, hnz, hd]
    exact iff_of_true hres hd
  · have hres : collectCoins cfg p [c] = ([c], 0) := by
      simp [collectCoins, collectStep, hl, hnz, hd]
    rw [hres]
    refine iff_of_false ?_ hd
    intro hEq
    exact absurd (congrArg Prod.snd hEq) (by simp)

/-- Witness for C5 (amended), the spec's scenario: coin at world z = 0.1 and
planar distance 0.4, player radius 0.35 — collected with count 1 since
`0.4 ≤ 0.45 + 0.35`. -/
theorem collectCoins_marks_iff_witness :
    ((⟨0.1, 0.4, 0, 0.82, false⟩ : Coin).collected = false ∧
      |(⟨0.1, 0.4, 0, 0.82, false⟩ : Coin).z| ≤
        defaultCollisionConfig.coinZPadding) ∧
    (collectCoins defaultCollisionConfig ⟨0, 0, 0.35⟩
        [⟨0.1, 0.4, 0, 0.82, false⟩] = ([⟨0.1, 0.4, 0, 0.82, true⟩], 1) ↔
      Real.sqrt (((⟨0.1, 0.4, 0, 0.82, false⟩ : Coin).wx - (0 : ℝ)) ^ 2 +
          ((⟨0.1, 0.4, 0, 0.82, false⟩ : Coin).wy - (0 : ℝ)) ^ 2) ≤
        0.45 + 0.35) := by
  have hw : |(⟨0.1, 0.4, 0, 0.82, false⟩ : Coin).z| ≤
      defaultCollisionConfig.coinZPadding := by
    show |(0.1 : ℝ)| ≤ 1.2
    rw [abs_of_nonneg (by norm_num : (0 : ℝ) ≤ 0.1)]
    norm_num
  exact ⟨⟨rfl, hw⟩,
    collectCoins_marks_iff defaultCollisionConfig ⟨0, 0, 0.35⟩
      ⟨0.1, 0.4, 0, 0.82, false⟩ rfl hw⟩

/-! ### Claim theorems: spacing setter -/

/-- Counterexample to C9 as stated: `setBarrierSpacing(NaN)` stores NaN, not a
valid number at least `depth + surface_gap + 0.01` — JavaScript's `Math.max`
propagates NaN, so the NaN input is not coerced to a valid value.  Shown at
the spawner defaults `barrierDepth = 1.8`, `surfaceGapZ = 2`. -/
theorem setBarrierSpacing_nan_cex :
    setBarrierSpacingStored 1.8 2 JsNum.nan = JsNum.nan ∧
    ¬ ∃ x : ℝ, setBarrierSpacingStored 1.8 2 JsNum.nan = JsNum.num x ∧
        1.8 + 2 + 0.01 ≤ x := by
  refine ⟨rfl, ?_⟩
  rintro ⟨x, hx, -⟩
  exact JsNum.noConfusion hx

/-- C9 (amended): for every numeric (non-NaN) input `v`, including negative
values, `setBarrierSpacing` stores `max (depth + surface_gap + 0.01) v`, a
number at least the safe minimum `depth + surface_gap + 0.01`; a NaN input is
stored as NaN rather than coerced. -/
theorem setBarrierSpacing_clamped (depth gap v : ℝ) :
    setBarrierSpacingStored depth gap (JsNum.num v) =
      JsNum.num (max (depth + gap + 0.01) v) ∧
    depth + gap + 0.01 ≤ max (depth + gap + 0.01) v :=
  ⟨rfl, le_max_left _ _⟩

/-! ### Spawner update: refill placement and prefill invariant -/

@[simp] lemma spawnBarrierAt_obstacles (s : SpawnState) (d : Draws) (z : ℝ) :
    (spawnBarrierAt s d z).obstacles =
      s.obstacles ++ [mkBarrier s.tunnelRadius s.barrierDepth s.holeCfg d z] :=
  rfl

@[simp] lemma spawnBarrierAt_prefillCount (s : SpawnState) (d : Draws) (z : ℝ) :
    (spawnBarrierAt s d z).prefillCount = s.prefillCount := rfl

@[simp] lemma spawnBarrierAt_barrierZStart (s : SpawnState) (d : Draws) (z : ℝ) :
    (spawnBarrierAt s d z).barrierZStart = s.barrierZStart := rfl

@[simp] lemma spawnBarrierAt_barrierSpacingZ (s : SpawnState) (d : Draws) (z : ℝ) :
    (spawnBarrierAt s d z).barrierSpacingZ = s.barrierSpacingZ := rfl

@[simp] lemma mkBarrier_z (R depth : ℝ) (cfg : HoleCfg) (d : Draws) (z : ℝ) :
    (mkBarrier R depth cfg d z).z = z := rfl

/-- The refill loop appends barriers one by one, placing each at the z of the
barrier currently at the end of the live list minus the spacing (or at
`barrierZStart` on an empty list), until the count reaches `prefillCount`;
with fuel at least the deficit this characterizes the `while` loop exactly. -/
lemma refillLoop_spec (ω : ℕ → Draws) :
    ∀ (fuel : ℕ) (s : SpawnState) (k : ℕ),
      s.prefillCount ≤ s.obstacles.length + fuel →
      (refillLoop ω s k fuel).obstacles.map (fun o => o.z) =
          s.obstacles.map (fun o => o.z) ++
            specSpawnZs (s.obstacles.getLast?.map (fun o => o.z))
              s.barrierZStart s.barrierSpacingZ
              (s.prefillCount - s.obstacles.length) ∧
      (refillLoop ω s k fuel).obstacles.length =
          max s.obstacles.length s.prefillCount ∧
      (refillLoop ω s k fuel).prefillCount = s.prefillCount := by
  intro fuel
  induction fuel with
  | zero =>
      intro s k h
      have hle : s.prefillCount ≤ s.obstacles.length := by omega
      refine ⟨?_, ?_, ?_⟩
      · simp only [refillLoop]
        rw [Nat.sub_eq_zero_of_le hle]
        simp [specSpawnZs]
      · simp only [refillLoop]
        exact (max_eq_left hle).symm
      · simp [refillLoop]
  | succ fuel ih =>
      intro s k h
      by_cases hlt : s.obstacles.length < s.prefillCount
      · have hstep : refillLoop ω s k (fuel + 1) =
            refillLoop ω (spawnBarrierAt s (ω k) (nextSpawnZ s)) (k + 1) fuel := by
          simp only [refillLoop, if_pos hlt]
        obtain ⟨ihmap, ihlen, ihpre⟩ :=
          ih (spawnBarrierAt s (ω k) (nextSpawnZ s)) (k + 1)
            (by simp only [spawnBarrierAt_prefillCount, spawnBarrierAt_obstacles,
                  List.length_append]
                simp only [List.length_cons, List.length_nil]
                omega)
        refine ⟨?_, ?_, ?_⟩
        · rw [hstep, ihmap]
          simp only [spawnBarrierAt_obstacles, spawnBarrierAt_prefillCount,
            spawnBarrierAt_barrierZStart, spawnBarrierAt_barrierSpacingZ,
            List.map_append, List.length_append, List.map_cons, List.map_nil,
            List.length_cons, List.length_nil, List.getLast?_concat,
            mkBarrier_z, Option.map_some', Nat.zero_add, Nat.add_zero]
          have hn : s.prefillCount - s.obstacles.length =
              (s.prefillCount - (s.obstacles.length + 1)) + 1 := by omega
          rw [hn]
          cases hlast : s.obstacles.getLast? with
          | none =>
              have hnz : nextSpawnZ s = s.barrierZStart := by
                simp [nextSpawnZ, hlast]
              rw [hnz]
              simp [specSpawnZs, List.append_assoc]
          | some last =>
              have hnz : nextSpawnZ s = last.z - s.barrierSpacingZ := by
                simp [nextSpawnZ, hlast]
              rw [hnz]
              simp [specSpawnZs, List.append_assoc]
        · rw [hstep, ihlen]
          simp only [spawnBarrierAt_obstacles, spawnBarrierAt_prefillCount,
            List.length_append, List.length_cons, List.length_nil,
            Nat.zero_add]
          rw [max_eq_right (by omega : s.obstacles.length + 1 ≤ s.prefillCount),
            max_eq_right hlt.le]
        · rw [hstep, ihpre, spawnBarrierAt_prefillCount]
      · have hstep : refillLoop ω s k (fuel + 1) = s := by
          simp only [refillLoop, if_neg hlt]
        have hle : s.prefillCount ≤ s.obstacles.length := not_lt.mp hlt
        refine ⟨?_, ?_, ?_⟩
        · rw [hstep, Nat.sub_eq_zero_of_le hle]
          simp [specSpawnZs]
        · rw [hstep]
          exact (max_eq_left hle).symm
        · rw [hstep]

/-- Closed form of the spec placement rule starting from a live furthest-back
barrier at `b`. -/
lemma specSpawnZs_some (startZ spacing b : ℝ) :
    ∀ n, specSpawnZs (some b) startZ spacing n =
      (List.range n).map (fun j => b - (↑j + 1) * spacing) := by
  intro n
  induction n generalizing b with
  | zero => simp [specSpawnZs]
  | succ n ih =>
      simp only [specSpawnZs]
      rw [ih (b - spacing), List.range_succ_eq_map]
      simp only [List.map_cons, List.map_map, Nat.cast_zero]
      refine congrArg₂ List.cons (by ring) ?_
      refine List.map_congr_left fun j _ => ?_
      simp only [Function.comp_apply]
      push_cast [Nat.succ_eq_add_one]
      ring

/-- Closed form of the spec placement rule starting from an empty live list:
first spawn at `startZ`, each next one `spacing` further back. -/
lemma specSpawnZs_none (startZ spacing : ℝ) (n : ℕ) :
    specSpawnZs none startZ spacing n =
      (List.range n).map (fun j => startZ - ↑j * spacing) := by
  cases n with
  | zero => simp [specSpawnZs]
  | succ m =>
      simp only [specSpawnZs]
      rw [specSpawnZs_some, List.range_succ_eq_map]
      simp only [List.map_cons, List.map_map, Nat.cast_zero]
      refine congrArg₂ List.cons (by ring) ?_
      refine List.map_congr_left fun j _ => ?_
      simp only [Function.comp_apply]
      push_cast [Nat.succ_eq_add_one]
      ring

@[simp] lemma spawnBarrierAt_tunnelRadius (s : SpawnState) (d : Draws) (z : ℝ) :
    (spawnBarrierAt s d z).tunnelRadius = s.tunnelRadius := rfl

@[simp] lemma spawnBarrierAt_barrierDepth (s : SpawnState) (d : Draws) (z : ℝ) :
    (spawnBarrierAt s d z).barrierDepth = s.barrierDepth := rfl

@[simp] lemma spawnBarrierAt_holeCfg (s : SpawnState) (d : Draws) (z : ℝ) :
    (spawnBarrierAt s d z).holeCfg = s.holeCfg := rfl

@[simp] lemma spawnBarrierAt_despawnZ (s : SpawnState) (d : Draws) (z : ℝ) :
    (spawnBarrierAt s d z).despawnZ = s.despawnZ := rfl

/-- The prefill loop keeps all configuration fields of the state. -/
lemma prefillLoop_config (ω : ℕ → Draws) :
    ∀ (n : ℕ) (s : SpawnState) (i : ℕ),
      (prefillLoop ω s i n).prefillCount = s.prefillCount ∧
      (prefillLoop ω s i n).barrierZStart = s.barrierZStart ∧
      (prefillLoop ω s i n).barrierSpacingZ = s.barrierSpacingZ ∧
      (prefillLoop ω s i n).despawnZ = s.despawnZ := by
  intro n
  induction n with
  | zero => intro s i; simp [prefillLoop]
  | succ n ih =>
      intro s i
      simp only [prefillLoop]
      obtain ⟨h1, h2, h3, h4⟩ := ih
        (spawnBarrierAt s (ω i) (s.barrierZStart - i * s.barrierSpacingZ))
        (i + 1)
      rw [h1, h2, h3, h4]
      simp

/-- The z positions produced by the prefill loop: barrier `j` of the batch
lands at `barrierZStart - (i + j) * barrierSpacingZ`. -/
lemma prefillLoop_zs (ω : ℕ → Draws) :
    ∀ (n : ℕ) (s : SpawnState) (i : ℕ),
      (prefillLoop ω s i n).obstacles.map (fun o => o.z) =
        s.obstacles.map (fun o => o.z) ++
          (List.range n).map
            (fun j => s.barrierZStart - (↑i + ↑j) * s.barrierSpacingZ) := by
  intro n
  induction n with
  | zero => intro s i; simp [prefillLoop]
  | succ n ih =>
      intro s i
      simp only [prefillLoop]
      rw [ih (spawnBarrierAt s (ω i) (s.barrierZStart - i * s.barrierSpacingZ))
        (i + 1)]
      simp only [spawnBarrierAt_obstacles, spawnBarrierAt_barrierZStart,
        spawnBarrierAt_barrierSpacingZ, List.map_append, List.map_cons,
        List.map_nil, mkBarrier_z, List.append_assoc]
      rw [List.range_succ_eq_map]
      simp only [List.map_cons, List.map_map, Nat.cast_zero, add_zero,
        List.cons_append, List.nil_append]
      refine congrArg _ (congrArg _ ?_)
      refine List.map_congr_left fun j _ => ?_
      simp only [Function.comp_apply]
      push_cast [Nat.succ_eq_add_one]
      ring

/-- `_rebuildChain` places the fresh chain exactly along the spec placement
rule starting from an empty list. -/
lemma rebuildChain_zs (s : SpawnState) (ω : ℕ → Draws) :
    (rebuildChain s ω).obstacles.map (fun o => o.z) =
      specSpawnZs none s.barrierZStart s.barrierSpacingZ s.prefillCount := by
  unfold rebuildChain
  rw [prefillLoop_zs, specSpawnZs_none]
  simp

@[simp] lemma preRefill_prefillCount (s : SpawnState) (ω : ℕ → Draws)
    (v dt : ℝ) : (preRefill s ω v dt).1.prefillCount = s.prefillCount := by
  unfold preRefill rebuildChain
  by_cases h : s.obstacles.length = 0 <;>
    simp [h, (prefillLoop_config ω s.prefillCount _ 0).1]

@[simp] lemma preRefill_barrierZStart (s : SpawnState) (ω : ℕ → Draws)
    (v dt : ℝ) : (preRefill s ω v dt).1.barrierZStart = s.barrierZStart := by
  unfold preRefill rebuildChain
  by_cases h : s.obstacles.length = 0 <;>
    simp [h, (prefillLoop_config ω s.prefillCount _ 0).2.1]

@[simp] lemma preRefill_barrierSpacingZ (s : SpawnState) (ω : ℕ → Draws)
    (v dt : ℝ) : (preRefill s ω v dt).1.barrierSpacingZ = s.barrierSpacingZ := by
  unfold preRefill rebuildChain
  by_cases h : s.obstacles.length = 0 <;>
    simp [h, (prefillLoop_config ω s.prefillCount _ 0).2.2.1]

/-- C4: for every spawner state (including an empty live list) and every
`(world_speed, dt)`, after `update` returns the live barrier count is at least
`prefillCount`; every barrier spawned by the refill loop is placed at the z of
the barrier currently at the end of the live list (the furthest-back barrier
of the maintained decreasing-z chain) minus `barrierSpacingZ`, or at
`barrierZStart` if none exist — the final z list extends the post-cull list by
exactly the spec placement sequence `specSpawnZs`; and a self-healing rebuild
places its whole chain by the same rule starting from the empty list. -/
theorem update_restores_prefill (s : SpawnState) (ωR ωS : ℕ → Draws)
    (v dt : ℝ) :
    s.prefillCount ≤ (update s ωR ωS v dt).1.obstacles.length ∧
    (update s ωR ωS v dt).1.obstacles.map (fun o => o.z) =
      (preRefill s ωR v dt).1.obstacles.map (fun o => o.z) ++
        specSpawnZs
          ((preRefill s ωR v dt).1.obstacles.getLast?.map (fun o => o.z))
          s.barrierZStart s.barrierSpacingZ
          (s.prefillCount - (preRefill s ωR v dt).1.obstacles.length) ∧
    (rebuildChain s ωR).obstacles.map (fun o => o.z) =
      specSpawnZs none s.barrierZStart s.barrierSpacingZ s.prefillCount := by
  obtain ⟨hmap, hlen, -⟩ :=
    refillLoop_spec ωS (preRefill s ωR v dt).1.prefillCount
      (preRefill s ωR v dt).1 0 (Nat.le_add_left _ _)
  have hupd : (update s ωR ωS v dt).1 =
      refillLoop ωS (preRefill s ωR v dt).1 0
        (preRefill s ωR v dt).1.prefillCount := rfl
  refine ⟨?_, ?_, rebuildChain_zs s ωR⟩
  · rw [hupd, hlen, preRefill_prefillCount]
    exact le_max_right _ _
  · rw [hupd, hmap, preRefill_prefillCount, preRefill_barrierZStart,
      preRefill_barrierSpacingZ]

/-! ### One-shot "barrier passed" notification -/

/-- Advancing a barrier always moves its z by `speed * dt`, in both
branches of the passed check. -/
lemma advanceObstacle_z (v dt : ℝ) (o : Obstacle) :
    (advanceObstacle v dt o).1.z = o.z + v * dt := by
  unfold advanceObstacle
  split_ifs <;> rfl

/-- The passed flag after an advance is the old flag or-ed with the fired
event. -/
lemma advanceObstacle_passed (v dt : ℝ) (o : Obstacle) :
    (advanceObstacle v dt o).1.passedSound =
      (o.passedSound || (advanceObstacle v dt o).2) := by
  unfold advanceObstacle
  split_ifs <;> simp

/-- The notification fires on an advance exactly when the flag is still unset
and the z crosses from negative to non-negative. -/
lemma advanceObstacle_fires_iff (v dt : ℝ) (o : Obstacle) :
    (advanceObstacle v dt o).2 = true ↔
      (o.passedSound = false ∧ o.z < 0 ∧ 0 ≤ o.z + v * dt) := by
  unfold advanceObstacle
  split_ifs <;> simp_all

/-- z along a barrier trajectory advances additively each tick. -/
lemma obsTrace_z_succ (sp dtf : ℕ → ℝ) (o : Obstacle) (t : ℕ) :
    (obsTrace sp dtf o (t + 1)).z = (obsTrace sp dtf o t).z + sp t * dtf t := by
  simp only [obsTrace]
  exact advanceObstacle_z _ _ _

/-- For a barrier spawned with the flag unset, the flag at tick `t` is set
exactly when the notification fired at some earlier tick. -/
lemma obsTrace_passed_iff (sp dtf : ℕ → ℝ) (o : Obstacle)
    (h0 : o.passedSound = false) :
    ∀ t, ((obsTrace sp dtf o t).passedSound = true ↔
      ∃ u, u < t ∧ fireAt sp dtf o u = true) := by
  intro t
  induction t with
  | zero => simp [obsTrace, h0]
  | succ t ih =>
      simp only [obsTrace]
      rw [advanceObstacle_passed]
      simp only [Bool.or_eq_true, ih]
      constructor
      · rintro (⟨u, hu, hf⟩ | hf)
        · exact ⟨u, Nat.lt_succ_of_lt hu, hf⟩
        · exact ⟨t, Nat.lt_succ_self t, hf⟩
      · rintro ⟨u, hu, hf⟩
        rcases Nat.lt_succ_iff_lt_or_eq.mp hu with h | h
        · exact Or.inl ⟨u, h, hf⟩
        · subst h
          exact Or.inr hf

/-- C6: for every barrier that enters the live list with its flag unset at a
negative z and whose trajectory ever reaches z ≥ 0 (as every despawned barrier
does, since `despawnZ ≥ 0`), the "barrier passed" notification fires on
exactly one tick — the tick on which z transitions from negative (before the
advance) to non-negative (after the advance) — and the passed flag is set on
that tick and never reset afterwards. -/
theorem barrier_passed_exactly_once (sp dtf : ℕ → ℝ) (o : Obstacle)
    (h0 : o.passedSound = false) (hz0 : o.z < 0)
    (hcross : ∃ T, 0 ≤ (obsTrace sp dtf o T).z) :
    ∃ t, fireAt sp dtf o t = true ∧
      (obsTrace sp dtf o t).z < 0 ∧ 0 ≤ (obsTrace sp dtf o (t + 1)).z ∧
      (∀ u, fireAt sp dtf o u = true → u = t) ∧
      (∀ u, t < u → (obsTrace sp dtf o u).passedSound = true) := by
  have hspec : 0 ≤ (obsTrace sp dtf o (Nat.find hcross)).z := Nat.find_spec hcross
  have hmin : ∀ u, u < Nat.find hcross → ¬ 0 ≤ (obsTrace sp dtf o u).z :=
    fun u hu => Nat.find_min hcross hu
  have hT0 : Nat.find hcross ≠ 0 := by
    intro h
    rw [h] at hspec
    simp only [obsTrace] at hspec
    exact absurd hspec (not_le.mpr hz0)
  obtain ⟨t, ht⟩ : ∃ t, Nat.find hcross = t + 1 :=
    ⟨Nat.find hcross - 1,
      (Nat.succ_pred_eq_of_pos (Nat.pos_of_ne_zero hT0)).symm⟩
  have hzt : (obsTrace sp dtf o t).z < 0 := not_le.mp (hmin t (by omega))
  have hzt1 : 0 ≤ (obsTrace sp dtf o (t + 1)).z := ht ▸ hspec
  have hnofire : ∀ u, u < t → fireAt sp dtf o u = false := by
    intro u hu
    by_contra hf
    rw [Bool.not_eq_false] at hf
    have hcond := (advanceObstacle_fires_iff _ _ _).mp hf
    have h1 : 0 ≤ (obsTrace sp dtf o (u + 1)).z := by
      rw [obsTrace_z_succ]
      exact hcond.2.2
    have h2 : Nat.find hcross ≤ u + 1 := Nat.find_min' hcross h1
    omega
  have hflag : (obsTrace sp dtf o t).passedSound = false := by
    by_contra h
    rw [Bool.not_eq_false] at h
    obtain ⟨u, hu, hf⟩ := (obsTrace_passed_iff sp dtf o h0 t).mp h
    rw [hnofire u hu] at hf
    exact Bool.false_ne_true hf
  have hfire : fireAt sp dtf o t = true := by
    apply (advanceObstacle_fires_iff _ _ _).mpr
    refine ⟨hflag, hzt, ?_⟩
    rw [obsTrace_z_succ] at hzt1
    exact hzt1
  refine ⟨t, hfire, hzt, hzt1, ?_, ?_⟩
  · intro u hf
    have hcond := (advanceObstacle_fires_iff _ _ _).mp hf
    have h1 : 0 ≤ (obsTrace sp dtf o (u + 1)).z := by
      rw [obsTrace_z_succ]
      exact hcond.2.2
    have h2 : Nat.find hcross ≤ u + 1 := Nat.find_min' hcross h1
    rcases Nat.lt_or_ge t u with hlt | hge
    · have := (obsTrace_passed_iff sp dtf o h0 u).mpr ⟨t, hlt, hfire⟩
      rw [hcond.1] at this
      exact absurd this Bool.false_ne_true
    · omega
  · intro u hu
    exact (obsTrace_passed_iff sp dtf o h0 u).mpr ⟨t, hu, hfire⟩

/-- Witness for C6: a barrier at z = -1 with unset flag, constant speed 2 and
dt 1 — its trajectory reaches z ≥ 0 at tick 1, so the notification fires
exactly once. -/
theorem barrier_passed_exactly_once_witness :
    ((⟨true, 8, 1.8, [], -1, 0, 0, false⟩ : Obstacle).passedSound = false ∧
      (⟨true, 8, 1.8, [], -1, 0, 0, false⟩ : Obstacle).z < 0 ∧
      ∃ T, 0 ≤ (obsTrace (fun _ => 2) (fun _ => 1)
        ⟨true, 8, 1.8, [], -1, 0, 0, false⟩ T).z) ∧
    ∃ t, fireAt (fun _ => 2) (fun _ => 1)
        ⟨true, 8, 1.8, [], -1, 0, 0, false⟩ t = true ∧
      (obsTrace (fun _ => 2) (fun _ => 1)
        ⟨true, 8, 1.8, [], -1, 0, 0, false⟩ t).z < 0 ∧
      0 ≤ (obsTrace (fun _ => 2) (fun _ => 1)
        ⟨true, 8, 1.8, [], -1, 0, 0, false⟩ (t + 1)).z ∧
      (∀ u, fireAt (fun _ => 2) (fun _ => 1)
        ⟨true, 8, 1.8, [], -1, 0, 0, false⟩ u = true → u = t) ∧
      (∀ u, t < u → (obsTrace (fun _ => 2) (fun _ => 1)
        ⟨true, 8, 1.8, [], -1, 0, 0, false⟩ u).passedSound = true) := by
  have hz0 : (⟨true, 8, 1.8, [], -1, 0, 0, false⟩ : Obstacle).z < 0 := by
    norm_num
  have hcross : ∃ T, 0 ≤ (obsTrace (fun _ => 2) (fun _ => 1)
      ⟨true, 8, 1.8, [], -1, 0, 0, false⟩ T).z := by
    refine ⟨1, ?_⟩
    rw [obsTrace_z_succ]
    show (0 : ℝ) ≤ (⟨true, 8, 1.8, [], -1, 0, 0, false⟩ : Obstacle).z + 2 * 1
    norm_num
  exact ⟨⟨rfl, hz0, hcross⟩,
    barrier_passed_exactly_once (fun _ => 2) (fun _ => 1)
      ⟨true, 8, 1.8, [], -1, 0, 0, false⟩ rfl hz0 hcross⟩

/-! ### Hole generation geometry -/

/-- Distance from the origin of a point placed at angle `a` and radius
`ro ≥ 0`. -/
lemma sqrt_cos_sin (a ro : ℝ) (h : 0 ≤ ro) :
    Real.sqrt ((Real.cos a * ro) ^ 2 + (Real.sin a * ro) ^ 2) = ro := by
  have hsum : (Real.cos a * ro) ^ 2 + (Real.sin a * ro) ^ 2 = ro ^ 2 := by
    have hp := Real.sin_sq_add_cos_sq a
    nlinarith [hp]
  rw [hsum, Real.sqrt_sq h]

/-- At tunnel radius 8 under the default tuning, the drawn twin radius lies in
`[1.44, 2.08)`. -/
lemma twinRHole0_bounds (d : Draws) (h10 : 0 ≤ d.u1) (h11 : d.u1 < 1) :
    1.44 ≤ twinRHole0 8 defaultHoleCfg d ∧ twinRHole0 8 defaultHoleCfg d < 2.08 := by
  unfold twinRHole0 rand
  rw [show defaultHoleCfg.twinRadiusFracMin = 0.18 from rfl,
    show defaultHoleCfg.twinRadiusFracMax = 0.26 from rfl]
  constructor <;> nlinarith

/-- The twin `roMax` clamp is inactive at radius 8. -/
lemma twinRoMax_eq (d : Draws) (h10 : 0 ≤ d.u1) (h11 : d.u1 < 1) :
    twinRoMax 8 defaultHoleCfg d = 8 - twinRHole0 8 defaultHoleCfg d - 0.35 := by
  obtain ⟨ha, hb⟩ := twinRHole0_bounds d h10 h11
  unfold twinRoMax
  rw [show defaultHoleCfg.edgeMarginAbs = 0.35 from rfl]
  exact max_eq_right (by linarith)

/-- The twin radius clamp never fires at radius 8: the clamped radius equals
the drawn radius. -/
lemma twinRHole_eq (d : Draws) (h10 : 0 ≤ d.u1) (h11 : d.u1 < 1) :
    twinRHole 8 defaultHoleCfg d = twinRHole0 8 defaultHoleCfg d := by
  obtain ⟨ha, hb⟩ := twinRHole0_bounds d h10 h11
  unfold twinRHole
  rw [twinRoMax_eq d h10 h11,
    show defaultHoleCfg.twinMinGapFrac = 0.12 from rfl]
  rw [max_eq_right (by linarith :
    (0.1 * 8 : ℝ) ≤ 8 - twinRHole0 8 defaultHoleCfg d - 0.35 - 0.12 * 8)]
  exact min_eq_left (by linarith)

/-- The twin offset distance keeps the minimum clearance above the hole radius
and stays within the edge margin. -/
lemma twinRo_bounds (d : Draws) (h10 : 0 ≤ d.u1) (h11 : d.u1 < 1)
    (h20 : 0 ≤ d.u2) (h21 : d.u2 < 1) :
    twinRHole0 8 defaultHoleCfg d + 0.96 ≤ twinRo 8 defaultHoleCfg d ∧
    twinRo 8 defaultHoleCfg d + twinRHole0 8 defaultHoleCfg d ≤ 7.65 := by
  obtain ⟨ha, hb⟩ := twinRHole0_bounds d h10 h11
  have hmax := twinRoMax_eq d h10 h11
  have hminEq : twinRoMin 8 defaultHoleCfg d =
      twinRHole0 8 defaultHoleCfg d + 0.96 := by
    unfold twinRoMin
    rw [twinRHole_eq d h10 h11,
      show defaultHoleCfg.twinMinGapFrac = 0.12 from rfl]
    rw [max_eq_left (by linarith :
      (0.22 * 8 : ℝ) ≤ twinRHole0 8 defaultHoleCfg d + 0.12 * 8)]
    norm_num
  have hcond : twinRoMin 8 defaultHoleCfg d ≤ twinRoMax 8 defaultHoleCfg d := by
    rw [hminEq, hmax]
    linarith
  unfold twinRo
  rw [if_pos hcond, hminEq, hmax]
  unfold rand
  constructor
  · nlinarith [mul_nonneg h20 (by linarith : (0 : ℝ) ≤
      8 - twinRHole0 8 defaultHoleCfg d - 0.35 -
        (twinRHole0 8 defaultHoleCfg d + 0.96))]
  · nlinarith [mul_nonneg (by linarith : (0 : ℝ) ≤ 1 - d.u2)
      (by linarith : (0 : ℝ) ≤ 8 - twinRHole0 8 defaultHoleCfg d - 0.35 -
        (twinRHole0 8 defaultHoleCfg d + 0.96))]

/-- Twin layout geometry at radius 8: positive radii, containment within the
edge margin, and no overlap between the two holes. -/
lemma twinHoles_geometry (d : Draws) (h10 : 0 ≤ d.u1) (h11 : d.u1 < 1)
    (h20 : 0 ≤ d.u2) (h21 : d.u2 < 1) :
    (∀ h ∈ twinHoles 8 defaultHoleCfg d, 0 < h.r ∧
      Real.sqrt (h.x ^ 2 + h.y ^ 2) + h.r ≤ 7.65) ∧
    (twinHoles 8 defaultHoleCfg d).Pairwise
      (fun a b => a.r + b.r ≤ Real.sqrt ((a.x - b.x) ^ 2 + (a.y - b.y) ^ 2)) := by
  obtain ⟨ha, hb⟩ := twinRHole0_bounds d h10 h11
  obtain ⟨hro1, hro2⟩ := twinRo_bounds d h10 h11 h20 h21
  have hrh := twinRHole_eq d h10 h11
  have hronn : 0 ≤ twinRo 8 defaultHoleCfg d := by linarith
  have hsq1 : Real.sqrt
      ((Real.cos (d.u3 * (2 * Real.pi)) * twinRo 8 defaultHoleCfg d) ^ 2 +
        (Real.sin (d.u3 * (2 * Real.pi)) * twinRo 8 defaultHoleCfg d) ^ 2) =
      twinRo 8 defaultHoleCfg d := sqrt_cos_sin _ _ hronn
  constructor
  · intro h hm
    simp only [twinHoles, List.mem_cons, List.not_mem_nil, or_false] at hm
    rcases hm with hm | hm
    · subst hm
      constructor
      · show (0 : ℝ) < twinRHole 8 defaultHoleCfg d
        rw [hrh]
        linarith
      · show Real.sqrt
            ((Real.cos (d.u3 * (2 * Real.pi)) * twinRo 8 defaultHoleCfg d) ^ 2 +
              (Real.sin (d.u3 * (2 * Real.pi)) * twinRo 8 defaultHoleCfg d) ^ 2) +
            twinRHole 8 defaultHoleCfg d ≤ 7.65
        rw [hsq1, hrh]
        linarith
    · subst hm
      constructor
      · show (0 : ℝ) < twinRHole 8 defaultHoleCfg d
        rw [hrh]
        linarith
      · show Real.sqrt
            ((-(Real.cos (d.u3 * (2 * Real.pi)) * twinRo 8 defaultHoleCfg d)) ^ 2 +
              (-(Real.sin (d.u3 * (2 * Real.pi)) * twinRo 8 defaultHoleCfg d)) ^ 2) +
            twinRHole 8 defaultHoleCfg d ≤ 7.65
        rw [neg_sq, neg_sq, hsq1, hrh]
        linarith
  · refine List.Pairwise.cons ?_ (by simp)
    intro b hm
    simp only [List.mem_singleton] at hm
    subst hm
    show twinRHole 8 defaultHoleCfg d + twinRHole 8 defaultHoleCfg d ≤
      Real.sqrt
        ((Real.cos (d.u3 * (2 * Real.pi)) * twinRo 8 defaultHoleCfg d -
            -(Real.cos (d.u3 * (2 * Real.pi)) * twinRo 8 defaultHoleCfg d)) ^ 2 +
          (Real.sin (d.u3 * (2 * Real.pi)) * twinRo 8 defaultHoleCfg d -
            -(Real.sin (d.u3 * (2 * Real.pi)) * twinRo 8 defaultHoleCfg d)) ^ 2)
    have hdist : (Real.cos (d.u3 * (2 * Real.pi)) * twinRo 8 defaultHoleCfg d -
          -(Real.cos (d.u3 * (2 * Real.pi)) * twinRo 8 defaultHoleCfg d)) ^ 2 +
        (Real.sin (d.u3 * (2 * Real.pi)) * twinRo 8 defaultHoleCfg d -
          -(Real.sin (d.u3 * (2 * Real.pi)) * twinRo 8 defaultHoleCfg d)) ^ 2 =
        (Real.cos (d.u3 * (2 * Real.pi)) * (2 * twinRo 8 defaultHoleCfg d)) ^ 2 +
          (Real.sin (d.u3 * (2 * Real.pi)) * (2 * twinRo 8 defaultHoleCfg d)) ^ 2 := by
      ring
    rw [hdist, sqrt_cos_sin _ _ (by linarith), hrh]
    linarith

/-- Ring layout geometry at radius 8: a single centered hole of radius in
`(2.56, 3.84]`, inside the edge margin. -/
lemma ringHole_geometry (d : Draws) (h10 : 0 ≤ d.u1) (h11 : d.u1 < 1) :
    (∀ h ∈ ringHole 8 defaultHoleCfg d, 0 < h.r ∧
      Real.sqrt (h.x ^ 2 + h.y ^ 2) + h.r ≤ 7.65) ∧
    (ringHole 8 defaultHoleCfg d).Pairwise
      (fun a b => a.r + b.r ≤ Real.sqrt ((a.x - b.x) ^ 2 + (a.y - b.y) ^ 2)) := by
  have hb1 : 8 - 8 * rand defaultHoleCfg.ringWidthFracMin
      defaultHoleCfg.ringWidthFracMax d.u1 ≤ 3.84 := by
    rw [show defaultHoleCfg.ringWidthFracMin = 0.52 from rfl,
      show defaultHoleCfg.ringWidthFracMax = 0.68 from rfl]
    unfold rand
    nlinarith
  have hb2 : 2.56 < 8 - 8 * rand defaultHoleCfg.ringWidthFracMin
      defaultHoleCfg.ringWidthFracMax d.u1 := by
    rw [show defaultHoleCfg.ringWidthFracMin = 0.52 from rfl,
      show defaultHoleCfg.ringWidthFracMax = 0.68 from rfl]
    unfold rand
    nlinarith
  have hmax : max defaultHoleCfg.edgeMarginAbs
      (8 - 8 * rand defaultHoleCfg.ringWidthFracMin
        defaultHoleCfg.ringWidthFracMax d.u1) =
      8 - 8 * rand defaultHoleCfg.ringWidthFracMin
        defaultHoleCfg.ringWidthFracMax d.u1 :=
    max_eq_right (by
      rw [show defaultHoleCfg.edgeMarginAbs = 0.35 from rfl]
      linarith)
  constructor
  · intro h hm
    simp only [ringHole, List.mem_singleton] at hm
    subst hm
    constructor
    · show (0 : ℝ) < max defaultHoleCfg.edgeMarginAbs
        (8 - 8 * rand defaultHoleCfg.ringWidthFracMin
          defaultHoleCfg.ringWidthFracMax d.u1)
      rw [hmax]
      linarith
    · show Real.sqrt ((0 : ℝ) ^ 2 + (0 : ℝ) ^ 2) + max defaultHoleCfg.edgeMarginAbs
        (8 - 8 * rand defaultHoleCfg.ringWidthFracMin
          defaultHoleCfg.ringWidthFracMax d.u1) ≤ 7.65
      have h0 : Real.sqrt ((0 : ℝ) ^ 2 + (0 : ℝ) ^ 2) = 0 := by
        norm_num
      rw [h0, hmax]
      linarith
  · simp [ringHole]

/-- Off-center layout bounds at radius 8: drawn radius in `[1.76, 2.56)` and
offset distance in `[2.24, roMax)`. -/
lemma offRo_bounds (d : Draws) (h10 : 0 ≤ d.u1) (h11 : d.u1 < 1)
    (h20 : 0 ≤ d.u2) (h21 : d.u2 < 1) :
    1.76 ≤ offRHole 8 defaultHoleCfg d ∧ offRHole 8 defaultHoleCfg d < 2.56 ∧
    0 ≤ offRo 8 defaultHoleCfg d ∧
    offRo 8 defaultHoleCfg d + offRHole 8 defaultHoleCfg d ≤ 7.65 := by
  have hrb : 1.76 ≤ offRHole 8 defaultHoleCfg d ∧
      offRHole 8 defaultHoleCfg d < 2.56 := by
    unfold offRHole rand
    rw [show defaultHoleCfg.offRadiusFracMin = 0.22 from rfl,
      show defaultHoleCfg.offRadiusFracMax = 0.32 from rfl]
    constructor <;> nlinarith
  obtain ⟨ha, hb⟩ := hrb
  have hmax : offRoMax 8 defaultHoleCfg d =
      8 - offRHole 8 defaultHoleCfg d - 0.35 := by
    unfold offRoMax
    rw [show defaultHoleCfg.edgeMarginAbs = 0.35 from rfl]
    exact max_eq_right (by linarith)
  have hmin : offRoMin 8 defaultHoleCfg d = 8 * 0.28 := by
    unfold offRoMin
    rw [hmax]
    exact min_eq_right (by linarith)
  have hdelta : max 0.001 (offRoMax 8 defaultHoleCfg d -
      offRoMin 8 defaultHoleCfg d) =
      offRoMax 8 defaultHoleCfg d - offRoMin 8 defaultHoleCfg d := by
    rw [hmax, hmin]
    exact max_eq_right (by linarith)
  refine ⟨ha, hb, ?_, ?_⟩
  · unfold offRo
    rw [hdelta, hmax, hmin]
    nlinarith [mul_nonneg h20 (by linarith : (0 : ℝ) ≤
      8 - offRHole 8 defaultHoleCfg d - 0.35 - 8 * 0.28)]
  · unfold offRo
    rw [hdelta, hmax, hmin]
    nlinarith [mul_nonneg (by linarith : (0 : ℝ) ≤ 1 - d.u2)
      (by linarith : (0 : ℝ) ≤ 8 - offRHole 8 defaultHoleCfg d - 0.35 - 8 * 0.28)]

/-- Off-center layout geometry at radius 8. -/
lemma offsetHole_geometry (d : Draws) (h10 : 0 ≤ d.u1) (h11 : d.u1 < 1)
    (h20 : 0 ≤ d.u2) (h21 : d.u2 < 1) :
    (∀ h ∈ offsetHole 8 defaultHoleCfg d, 0 < h.r ∧
      Real.sqrt (h.x ^ 2 + h.y ^ 2) + h.r ≤ 7.65) ∧
    (offsetHole 8 defaultHoleCfg d).Pairwise
      (fun a b => a.r + b.r ≤ Real.sqrt ((a.x - b.x) ^ 2 + (a.y - b.y) ^ 2)) := by
  obtain ⟨ha, hb, hro0, hro1⟩ := offRo_bounds d h10 h11 h20 h21
  constructor
  · intro h hm
    simp only [offsetHole, List.mem_singleton] at hm
    subst hm
    constructor
    · show (0 : ℝ) < offRHole 8 defaultHoleCfg d
      linarith
    · show Real.sqrt
          ((Real.cos (d.u3 * (2 * Real.pi)) * offRo 8 defaultHoleCfg d) ^ 2 +
            (Real.sin (d.u3 * (2 * Real.pi)) * offRo 8 defaultHoleCfg d) ^ 2) +
          offRHole 8 defaultHoleCfg d ≤ 7.65
      rw [sqrt_cos_sin _ _ hro0]
      linarith
  · simp [offsetHole]

/-- C3: every barrier produced by the hole generator at the game's tunnel
radius 8 under the default hole configuration — for any outcome of the random
draws (each in `[0,1)`) and any of the three layouts — has only holes of
positive radius, each hole's center distance plus radius at most
`outer_radius - edge_margin`, and pairwise non-overlapping holes
(center distance at least the sum of the radii). -/
theorem genHoles_geometry (d : Draws) (hp0 : 0 ≤ d.p) (hp1 : d.p < 1)
    (h10 : 0 ≤ d.u1) (h11 : d.u1 < 1) (h20 : 0 ≤ d.u2) (h21 : d.u2 < 1)
    (h30 : 0 ≤ d.u3) (h31 : d.u3 < 1) :
    (∀ h ∈ genHoles 8 defaultHoleCfg d, 0 < h.r ∧
      Real.sqrt (h.x ^ 2 + h.y ^ 2) + h.r ≤ 8 - defaultHoleCfg.edgeMarginAbs) ∧
    (genHoles 8 defaultHoleCfg d).Pairwise
      (fun a b => a.r + b.r ≤ Real.sqrt ((a.x - b.x) ^ 2 + (a.y - b.y) ^ 2)) := by
  rw [show (8 : ℝ) - defaultHoleCfg.edgeMarginAbs = 7.65 by
    rw [show defaultHoleCfg.edgeMarginAbs = 0.35 from rfl]; norm_num]
  unfold genHoles
  split_ifs with hp45 hp80
  · exact twinHoles_geometry d h10 h11 h20 h21
  · exact ringHole_geometry d h10 h11
  · exact offsetHole_geometry d h10 h11 h20 h21

/-- Witness for C3: all draws at 0.5 (a ring layout). -/
theorem genHoles_geometry_witness :
    ((0 : ℝ) ≤ 0.5 ∧ (0.5 : ℝ) < 1) ∧
    ((∀ h ∈ genHoles 8 defaultHoleCfg ⟨0.5, 0.5, 0.5, 0.5, 0.5, 0.5⟩,
        0 < h.r ∧ Real.sqrt (h.x ^ 2 + h.y ^ 2) + h.r ≤
          8 - defaultHoleCfg.edgeMarginAbs) ∧
      (genHoles 8 defaultHoleCfg ⟨0.5, 0.5, 0.5, 0.5, 0.5, 0.5⟩).Pairwise
        (fun a b => a.r + b.r ≤
          Real.sqrt ((a.x - b.x) ^ 2 + (a.y - b.y) ^ 2))) :=
  ⟨⟨by norm_num, by norm_num⟩,
    genHoles_geometry ⟨0.5, 0.5, 0.5, 0.5, 0.5, 0.5⟩ (by norm_num) (by norm_num)
      (by norm_num) (by norm_num) (by norm_num) (by norm_num) (by norm_num)
      (by norm_num)⟩

end Tunnelvision
